import Mathlib

/-!
Verification of the retail-sales analytics pipeline (`analysis.py`).

The pipeline is embedded shallowly:

* the pandas `DataFrame` of order records becomes a `List Record`;
* money amounts (`Unit_Price`, `Total_Sales`) become exact rationals;
* numpy's process-wide seeded generator is modelled by a draw stream
  `u : ℤ → ℕ → ℚ`, where `u seed k` is the `k`-th uniform `[0,1)` draw made
  after `np.random.seed seed`, together with an explicit global state
  (`GState`) that `np.random.seed` overwrites;
* fallible library calls return `Except PyErr`.
-/

namespace Retail

/-- Errors raised by the underlying Python libraries.  The constructor
`emptyDatasetError` is the distinct error class the specification postulates;
the program never defines or raises it, it is present only so that claims
about it can be stated. -/
inductive PyErr where
  | valueError (msg : String)
  | emptyDatasetError
deriving DecidableEq, Repr

/-- The empty string, used as the out-of-range default of lookups. -/
def emptyStr : String := ""

/-- Message pandas produces when `Series.idxmax` is called on an empty series. -/
def argmaxErrMsg : String := "attempt to get argmax of an empty sequence"

/-- Message `pd.date_range` produces for a negative `periods` argument. -/
def periodsErrMsg : String := "periods must be a non-negative integer"

/-! ### Configuration constants of `generate_sample_data` -/

def cities : List String := ["Sydney", "Melbourne", "Brisbane", "Perth", "Adelaide"]

def city_weights : List ℚ := [30/100, 25/100, 20/100, 15/100, 10/100]

def categories : List String := ["Electronics", "Clothing", "Home & Garden", "Sports", "Books"]

def category_weights : List ℚ := [25/100, 30/100, 20/100, 15/100, 10/100]

/-- The category-to-products dictionary of `generate_sample_data`. -/
def products (cat : String) : List String :=
  if cat = "Electronics" then ["Laptop", "Smartphone", "Tablet", "Headphones", "Smart Watch"]
  else if cat = "Clothing" then ["T-Shirt", "Jeans", "Jacket", "Dress", "Shoes"]
  else if cat = "Home & Garden" then ["Furniture", "Kitchenware", "Bedding", "Decor", "Tools"]
  else if cat = "Sports" then ["Bike", "Yoga Mat", "Dumbbells", "Tennis Racket", "Running Shoes"]
  else if cat = "Books" then ["Fiction", "Non-Fiction", "Textbook", "Cookbook", "Biography"]
  else []

def segments : List String := ["Premium", "Regular", "New", "VIP"]

def segment_weights : List ℚ := [20/100, 45/100, 20/100, 15/100]

def payments : List String := ["Credit Card", "PayPal", "Bank Transfer", "Cash"]

def payment_weights : List ℚ := [40/100, 30/100, 20/100, 10/100]

/-! ### Model of the numpy sampling primitives -/

/-- Model of one value of `np.random.randint(lo, hi)` driven by a uniform
draw `u ∈ [0,1)`. -/
def randint (lo hi : ℤ) (u : ℚ) : ℤ := lo + Int.floor (u * ((hi : ℚ) - (lo : ℚ)))

/-- Model of one value of `np.random.uniform(a, b)` driven by a draw
`u ∈ [0,1)`. -/
def uniform (a b u : ℚ) : ℚ := a + u * (b - a)

/-- Rounding to the nearest integer with ties to even, the rounding mode of
`np.round`. -/
def roundHalfEven (q : ℚ) : ℤ :=
  let n := Int.floor q
  let f := q - (n : ℚ)
  if f < 1/2 then n
  else if 1/2 < f then n + 1
  else if n % 2 = 0 then n else n + 1

/-- Model of `np.round(x, 2)`. -/
def round2 (x : ℚ) : ℚ := (roundHalfEven (x * 100) : ℚ) / 100

/-- Inverse-cdf sampling step for `np.random.choice` with probabilities:
walk the (option, weight) pairs accumulating the cdf until it passes `u`. -/
def wchoiceAux : List (String × ℚ) → ℚ → ℚ → String
  | [], _, _ => emptyStr
  | (s, w) :: rest, acc, u => if u < acc + w then s else wchoiceAux rest (acc + w) u

/-- Model of one value of `np.random.choice(opts, p=ws)` driven by a draw
`u ∈ [0,1)`. -/
def wchoice (opts : List String) (ws : List ℚ) (u : ℚ) : String :=
  wchoiceAux (opts.zip ws) 0 u

/-- Model of one value of `np.random.choice(opts)` without probabilities:
numpy draws a uniform index. -/
def uchoice (opts : List String) (u : ℚ) : String :=
  opts.getD (randint 0 (opts.length : ℤ) u).toNat emptyStr

/-- Swap the entries at positions `i` and `j` of a list. -/
def listSwap (l : List ℕ) (i j : ℕ) : List ℕ :=
  (l.set i (l.getD j 0)).set j (l.getD i 0)

/-- Durstenfeld Fisher–Yates main loop: `i` counts down from `n-1` to `1`,
swapping position `i` with a uniformly drawn `j ≤ i`; the draw for position
`i` is the `(n-1-i)`-th draw starting at `base`. -/
def fyGo (u : ℕ → ℚ) (n base : ℕ) : ℕ → List ℕ → List ℕ
  | 0, arr => arr
  | i + 1, arr =>
    let j := (randint 0 ((i : ℤ) + 2) (u (base + (n - 1 - (i + 1))))).toNat
    fyGo u n base i (listSwap arr (i + 1) j)

/-- Model of `np.random.permutation(n)`. -/
def permutation (u : ℕ → ℚ) (base n : ℕ) : List ℕ := fyGo u n base (n - 1) (List.range n)

/-! ### Order ids, dates and derived calendar fields -/

/-- Zero-pad a big-endian digit list on the left to width 5, as the Python
format `i:05d` does. -/
def pad5 (l : List ℕ) : List ℕ := List.replicate (5 - l.length) 0 ++ l

/-- Big-endian decimal digits of `i`, zero-padded to width 5. -/
def ordDigits (i : ℕ) : List ℕ := pad5 (Nat.digits 10 i).reverse

/-- Model of the order id string `ORD-` followed by `i` zero-padded to five
digits. -/
def ordId (i : ℕ) : String := "ORD-" ++ String.mk ((ordDigits i).map Nat.digitChar)

def nsPerDay : ℤ := 86400000000000

/-- Nanoseconds from 2024-01-01 00:00 to 2024-12-31 00:00 (365 days; 2024 is
a leap year with 366 days, Dec 31 being day index 365). -/
def spanNS : ℤ := 365 * nsPerDay

/-- Model of `pd.date_range('2024-01-01', '2024-12-31', periods=n)`: `n`
evenly spaced timestamps covering both endpoints, in nanoseconds measured
from 2024-01-01 00:00. -/
def dateNS (n i : ℕ) : ℤ := if n ≤ 1 then 0 else ((i : ℤ) * spanNS) / ((n : ℤ) - 1)

def month_lengths : List ℕ := [31, 29, 31, 30, 31, 30, 31, 31, 30, 31, 30, 31]

def monthOfDayAux : List ℕ → ℕ → ℕ → ℕ
  | [], _, m => m
  | len :: rest, d, m => if d < len then m else monthOfDayAux rest (d - len) (m + 1)

/-- 1-based month containing the 0-based day-of-year `d` of the leap year
2024. -/
def monthOfDay (d : ℕ) : ℕ := monthOfDayAux month_lengths d 1

def month_names : List String :=
  ["January", "February", "March", "April", "May", "June", "July", "August",
   "September", "October", "November", "December"]

def monthName (m : ℕ) : String := month_names.getD (m - 1) emptyStr

/-- Day names starting from Monday: 2024-01-01 was a Monday. -/
def day_names : List String :=
  ["Monday", "Tuesday", "Wednesday", "Thursday", "Friday", "Saturday", "Sunday"]

/-! ### The order record and the generator -/

/-- One row of the generated table, with the exact column set the program
builds.  `Year` is the constant 2024 because every generated timestamp lies
inside 2024. -/
structure Record where
  Order_ID : String
  Order_Date : ℤ
  Customer_ID : ℤ
  Product_Category : String
  Product : String
  Quantity : ℤ
  Unit_Price : ℚ
  Region : String
  Customer_Segment : String
  Payment_Method : String
  Total_Sales : ℚ
  Year : ℤ
  Month : ℕ
  Month_Name : String
  Quarter : ℕ
  DayOfWeek : String
deriving DecidableEq, Repr

/-- Global state of numpy's process-wide random generator, as far as this
program observes it: the seed it was last given and the number of values
drawn since.  `np.random.seed` overwrites it. -/
structure GState where
  seed : ℤ
  pos : ℕ
deriving DecidableEq, Repr

/-- The product draws of `generate_sample_data`: for each category (in the
fixed dictionary order) one uniform choice from that category's five products
per row carrying that category, appended blockwise. -/
def prodBlockDraws (u : ℕ → ℚ) (catList : List String) : ℕ → List String → List String
  | _, [] => []
  | base, c :: rest =>
    let nc := (catList.filter (fun x => decide (x = c))).length
    ((List.range nc).map (fun k => uchoice (products c) (u (base + k))))
      ++ prodBlockDraws u catList (base + nc) rest

/-- The per-row category assignments, drawn at stream offsets `n, …, 2n-1`. -/
def genCatList (r : ℕ → ℚ) (n : ℕ) : List String :=
  (List.range n).map (fun i => wchoice categories category_weights (r (n + i)))

/-- The `i`-th row built by `generate_sample_data` for `n` orders (hoisted out
of the generator so that its fields can be reasoned about directly). -/
def genRecord (r : ℕ → ℚ) (n i : ℕ) : Record :=
  let catList := genCatList r n
  let block := prodBlockDraws r catList (7 * n) categories
  let perm := permutation r (8 * n) n
  let q : ℤ := randint 1 10 (r (2 * n + i))
  let p : ℚ := round2 (uniform 10 500 (r (3 * n + i)))
  let dayIdx : ℕ := (dateNS n i / nsPerDay).toNat
  let m : ℕ := monthOfDay dayIdx
  { Order_ID := ordId (i + 1)
    Order_Date := dateNS n i
    Customer_ID := randint 1001 1100 (r i)
    Product_Category := catList.getD i emptyStr
    Product := block.getD (perm.getD i 0) emptyStr
    Quantity := q
    Unit_Price := p
    Region := wchoice cities city_weights (r (4 * n + i))
    Customer_Segment := wchoice segments segment_weights (r (5 * n + i))
    Payment_Method := wchoice payments payment_weights (r (6 * n + i))
    Total_Sales := (q : ℚ) * p
    Year := 2024
    Month := m
    Month_Name := monthName m
    Quarter := (m + 2) / 3
    DayOfWeek := day_names.getD (dayIdx % 7) emptyStr }

/-- Model of `generate_sample_data(n_orders, seed)`.  The draw stream is
consumed in the order the source samples: customer ids, categories,
quantities, unit prices, regions, segments, payment methods (one block of
`n` draws each, at offsets `0, n, 2n, …, 6n`), then the blockwise product
choices (offset `7n`) and the final Fisher–Yates shuffle (offset `8n`).
`np.random.seed(seed)` overwrites the incoming global state before any draw;
a negative `n_orders` makes `pd.date_range` raise a ValueError. -/
def generate_sample_data (u : ℤ → ℕ → ℚ) (n_orders : ℤ) (seed : ℤ) (st : GState) :
    Except PyErr (List Record) × GState :=
  let r : ℕ → ℚ := u seed
  if n_orders < 0 then
    (Except.error (PyErr.valueError periodsErrMsg), { seed := seed, pos := 0 })
  else
    let n := n_orders.toNat
    (Except.ok ((List.range n).map (genRecord r n)), { seed := seed, pos := 9 * n - 1 })

/-! ### The table cleaner -/

/-- Fold of `df.drop_duplicates()`: keep a row iff it has not been seen
before. -/
def dropDupAux {α : Type} [DecidableEq α] (seen : List α) : List α → List α
  | [] => []
  | a :: l => if a ∈ seen then dropDupAux seen l else a :: dropDupAux (a :: seen) l

/-- Model of `df.drop_duplicates()`: remove the rows equal (in every field) to
an earlier row, keeping the first occurrence. -/
def drop_duplicates {α : Type} [DecidableEq α] (l : List α) : List α := dropDupAux [] l

/-- What `data_cleaning` yields: its return value (the cleaned table) and the
two counts it reports, the printed duplicates-removed count and the printed
final record count. -/
structure CleaningOutput where
  table : List Record
  duplicates_removed : ℕ
  records_after : ℕ
deriving DecidableEq, Repr

/-- Model of `data_cleaning`: drop duplicate rows, then apply the three
positivity filters in sequence. -/
def data_cleaning (df : List Record) : CleaningOutput :=
  let before := df.length
  let d := drop_duplicates df
  let after := d.length
  let f1 := d.filter (fun r => decide (0 < r.Quantity))
  let f2 := f1.filter (fun r => decide (0 < r.Unit_Price))
  let f3 := f2.filter (fun r => decide (0 < r.Total_Sales))
  { table := f3, duplicates_removed := before - after, records_after := f3.length }

/-! ### Aggregation -/

/-- Sum of the `Total_Sales` column of a list of rows. -/
def sumTS (rows : List Record) : ℚ := (rows.map Record.Total_Sales).sum

/-- Model of `df['Total_Sales'].sum()`, the global total. -/
def total_sales (df : List Record) : ℚ := sumTS df

/-- The distinct values of `key` over the table, in first-appearance order.
(pandas `groupby` lists group keys in sorted order; every claim below is
insensitive to the order of the groups, only to the key-to-value
association, so first-appearance order is used.) -/
def groupKeys (key : Record → String) (df : List Record) : List String :=
  drop_duplicates (df.map key)

/-- One row of `agg(['sum','mean','count'])`. -/
structure AggRow where
  sum : ℚ
  mean : ℚ
  count : ℕ
deriving DecidableEq, Repr

/-- Model of `df.groupby(key)['Total_Sales'].agg(['sum','mean','count'])`. -/
def groupAgg (key : Record → String) (df : List Record) : List (String × AggRow) :=
  (groupKeys key df).map (fun k =>
    let g := df.filter (fun r => decide (key r = k))
    (k, { sum := sumTS g, mean := sumTS g / (g.length : ℚ), count := g.length }))

/-- Model of `df.groupby(key)['Total_Sales'].sum()`. -/
def groupSums (key : Record → String) (df : List Record) : List (String × ℚ) :=
  (groupKeys key df).map (fun k => (k, sumTS (df.filter (fun r => decide (key r = k)))))

/-! ### Insight extraction -/

/-- Left fold of `Series.idxmax`: the first entry whose value is maximal
(pandas keeps the first occurrence of the maximum, replacing only on a
strictly larger value). -/
def firstMax (p : String × ℚ) (l : List (String × ℚ)) : String × ℚ :=
  l.foldl (fun best q => if best.2 < q.2 then q else best) p

/-- Model of `Series.idxmax`: on an empty series pandas raises a ValueError. -/
def idxmaxE (l : List (String × ℚ)) : Except PyErr String :=
  match l with
  | [] => Except.error (PyErr.valueError argmaxErrMsg)
  | p :: rest => Except.ok (firstMax p rest).1

/-- Model of `Series.max()` on a non-empty series.  (On an empty series pandas
returns NaN; `key_insights` never reaches that case because the `idxmax` on
the same series raises first, so the `[]` clause below is dead code.) -/
def seriesMax (l : List (String × ℚ)) : ℚ :=
  match l with
  | [] => 0
  | p :: rest => rest.foldl (fun b q => max b q.2) p.2

/-- Model of `df.groupby('Quarter')['Total_Sales'].sum()`: per-quarter sums,
quarters in ascending order. -/
def quarterly_sums (df : List Record) : List (ℕ × ℚ) :=
  ((drop_duplicates (df.map Record.Quarter)).mergeSort (fun a b => decide (a ≤ b))).map
    (fun q => (q, sumTS (df.filter (fun r => decide (r.Quarter = q)))))

/-- The values `key_insights` extracts and prints. -/
structure Insights where
  best_category : String
  best_category_sales : ℚ
  top_region : String
  top_region_sales : ℚ
  top_product : String
  top_product_sales : ℚ
  top_segment : String
  quarterly : List (ℕ × ℚ)
deriving DecidableEq, Repr

/-- Model of `key_insights`: the four argmax-by-sum lookups (category, region,
product, segment) and the quarterly sums.  On an empty table the first
`idxmax` raises pandas' ValueError. -/
def key_insights (df : List Record) : Except PyErr Insights := do
  let bc ← idxmaxE (groupSums Record.Product_Category df)
  let tr ← idxmaxE (groupSums Record.Region df)
  let tp ← idxmaxE (groupSums Record.Product df)
  let ts ← idxmaxE (groupSums Record.Customer_Segment df)
  Except.ok
    { best_category := bc
      best_category_sales := seriesMax (groupSums Record.Product_Category df)
      top_region := tr
      top_region_sales := seriesMax (groupSums Record.Region df)
      top_product := tp
      top_product_sales := seriesMax (groupSums Record.Product df)
      top_segment := ts
      quarterly := quarterly_sums df }

/-- Model of the top-products ranking of `create_visualizations`:
`df.groupby('Product')['Total_Sales'].sum().sort_values(ascending=False).head(7)`. -/
def top_products (df : List Record) : List (String × ℚ) :=
  ((groupSums Record.Product df).mergeSort (fun p q => decide (q.2 ≤ p.2))).take 7

/-! ### Claim-side definitions (stated from the specification's words) -/

/-- Spec-side duplicate removal, following the spec's words for C4: a row
survives step 1 iff it is not an exact duplicate (all fields equal) of an
earlier row; kept rows stay in input order. -/
def specDedup {α : Type} [DecidableEq α] (l : List α) : List α :=
  (l.enum.filter (fun p => decide (p.2 ∉ l.take p.1))).map Prod.snd

/-- Spec-side cleaner for C4: duplicate removal, then one positivity filter. -/
def specClean (df : List Record) : List Record :=
  (specDedup df).filter
    (fun r => decide (0 < r.Quantity ∧ 0 < r.Unit_Price ∧ 0 < r.Total_Sales))

/-- The argmax property of C8: `(k, v)` is an entry of the per-group sums `l`
and `v` is greatest among the sums. -/
def isArgmaxIn (k : String) (v : ℚ) (l : List (String × ℚ)) : Prop :=
  (k, v) ∈ l ∧ ∀ q ∈ l, q.2 ≤ v

/-! ### Concrete witnesses -/

/-- A valid sample row. -/
def rec1 : Record :=
  { Order_ID := "ORD-00001"
    Order_Date := 0
    Customer_ID := 1001
    Product_Category := "Books"
    Product := "Fiction"
    Quantity := 1
    Unit_Price := 1
    Region := "Perth"
    Customer_Segment := "New"
    Payment_Method := "Cash"
    Total_Sales := 1
    Year := 2024
    Month := 1
    Month_Name := "January"
    Quarter := 1
    DayOfWeek := "Monday" }

/-- An invalid sample row (zero quantity, zero total). -/
def rec0 : Record :=
  { rec1 with Order_ID := "ORD-00002", Quantity := 0, Total_Sales := 0 }

/-- The constant-zero draw stream. -/
def u0 : ℤ → ℕ → ℚ := fun _ _ => 0

/-- A draw stream exhibiting the product/category misalignment: draw 2 makes
row 0 a Clothing row, draw 16 makes the final shuffle the identity
permutation; all other draws are 0. -/
def u1 : ℤ → ℕ → ℚ := fun _ k => if k = 2 then 3/10 else if k = 16 then 1/2 else 0

/-! ### Lemmas about duplicate removal -/

theorem mem_dropDupAux {α : Type} [DecidableEq α] (seen : List α) (l : List α) (x : α) :
    x ∈ dropDupAux seen l ↔ x ∈ l ∧ x ∉ seen := by
  induction l generalizing seen with
  | nil => simp [dropDupAux]
  | cons a t ih =>
    by_cases h : a ∈ seen
    · simp only [dropDupAux, if_pos h, ih, List.mem_cons]
      constructor
      · rintro ⟨h1, h2⟩
        exact ⟨Or.inr h1, h2⟩
      · rintro ⟨h1 | h1, h2⟩
        · subst h1; exact absurd h h2
        · exact ⟨h1, h2⟩
    · simp only [dropDupAux, if_neg h, List.mem_cons, ih]
      constructor
      · rintro (rfl | ⟨h1, h2⟩)
        · exact ⟨Or.inl rfl, h⟩
        · exact ⟨Or.inr h1, fun hs => h2 (Or.inr hs)⟩
      · rintro ⟨rfl | h1, h2⟩
        · exact Or.inl rfl
        · by_cases hxa : x = a
          · exact Or.inl hxa
          · exact Or.inr ⟨h1, by simp [List.mem_cons, hxa, h2]⟩

theorem nodup_dropDupAux {α : Type} [DecidableEq α] (seen : List α) (l : List α) :
    (dropDupAux seen l).Nodup := by
  induction l generalizing seen with
  | nil => simp [dropDupAux]
  | cons a t ih =>
    by_cases h : a ∈ seen
    · simpa [dropDupAux, if_pos h] using ih seen
    · rw [dropDupAux, if_neg h, List.nodup_cons]
      refine ⟨fun hmem => ?_, ih (a :: seen)⟩
      exact ((mem_dropDupAux _ _ _).1 hmem).2 (List.mem_cons_self a seen)

theorem dropDupAux_sublist {α : Type} [DecidableEq α] (seen : List α) (l : List α) :
    (dropDupAux seen l).Sublist l := by
  induction l generalizing seen with
  | nil => simp [dropDupAux]
  | cons a t ih =>
    by_cases h : a ∈ seen
    · rw [dropDupAux, if_pos h]
      exact (ih seen).cons a
    · rw [dropDupAux, if_neg h]
      exact (ih (a :: seen)).cons₂ a

theorem dropDupAux_eq_self {α : Type} [DecidableEq α] (seen : List α) (l : List α)
    (hnd : l.Nodup) (hdis : ∀ x ∈ l, x ∉ seen) : dropDupAux seen l = l := by
  induction l generalizing seen with
  | nil => simp [dropDupAux]
  | cons a t ih =>
    rw [List.nodup_cons] at hnd
    rw [dropDupAux, if_neg (hdis a (List.mem_cons_self a t))]
    refine congrArg (List.cons a) (ih (a :: seen) hnd.2 fun x hx => ?_)
    intro hmem
    rcases List.mem_cons.1 hmem with rfl | hs
    · exact hnd.1 hx
    · exact hdis x (List.mem_cons_of_mem a hx) hs

theorem mem_drop_duplicates {α : Type} [DecidableEq α] (l : List α) (x : α) :
    x ∈ drop_duplicates l ↔ x ∈ l := by
  simp [drop_duplicates, mem_dropDupAux]

theorem nodup_drop_duplicates {α : Type} [DecidableEq α] (l : List α) :
    (drop_duplicates l).Nodup := nodup_dropDupAux [] l

theorem drop_duplicates_of_nodup {α : Type} [DecidableEq α] (l : List α) (h : l.Nodup) :
    drop_duplicates l = l :=
  dropDupAux_eq_self [] l h (by simp)

/-! ### C6 — generator determinism -/

/-- C6 (confirmed): `generate_sample_data` is a function of `(n, seed)` alone —
because the code calls `np.random.seed(seed)` before drawing anything, the
table it returns does not depend on the incoming global generator state, so
two calls with the same arguments yield identical tables. -/
theorem generate_deterministic (u : ℤ → ℕ → ℚ) (n seed : ℤ) (st st' : GState) :
    (generate_sample_data u n seed st).1 = (generate_sample_data u n seed st').1 := rfl

/-! ### C1 — the product/category misalignment -/

/-- C1 (code bug): with the draw stream `u1` (two orders; category draws make
row 0 Clothing and row 1 Electronics; the final shuffle is the identity
permutation) the generator emits a row whose `Product_Category` is Clothing
but whose `Product` is Laptop, which is not a Clothing product: the blockwise
product list is decoupled from the per-row categories by the shuffle. -/
theorem generate_product_mismatch :
    (generate_sample_data u1 2 42 ⟨0, 0⟩).1
        = Except.ok [genRecord (u1 42) 2 0, genRecord (u1 42) 2 1]
      ∧ (genRecord (u1 42) 2 0).Product_Category = "Clothing"
      ∧ (genRecord (u1 42) 2 0).Product = "Laptop"
      ∧ "Laptop" ∉ products "Clothing" := by
  have hcat : genCatList (u1 42) 2 = ["Clothing", "Electronics"] := by
    norm_num [genCatList, List.range_succ, u1, wchoice, wchoiceAux, categories,
      category_weights]
  have hperm : permutation (u1 42) 16 2 = [0, 1] := by
    norm_num [permutation, fyGo, listSwap, u1, randint, List.range_succ, Int.floor_one]
  have hblock : prodBlockDraws (u1 42) ["Clothing", "Electronics"] 14 categories
      = ["Laptop", "T-Shirt"] := by
    simp only [prodBlockDraws, categories, List.filter_cons, List.filter_nil]
    simp
    norm_num [uchoice, randint, u1, products, List.range_succ]
    simp
  refine ⟨rfl, ?_, ?_, by decide⟩
  · simp [genRecord, hcat, List.getD]
  · simp [genRecord, hcat, hperm, hblock, List.getD]

/-! ### C2 — behavior of the insight extractor on an empty table -/

/-- C2 counterexample: on the empty table `key_insights` fails with pandas'
generic ValueError from `idxmax`, not with the postulated distinct
`EmptyDatasetError` (which the program never defines). -/
theorem key_insights_empty_not_distinct :
    key_insights [] = Except.error (PyErr.valueError argmaxErrMsg)
      ∧ key_insights [] ≠ Except.error PyErr.emptyDatasetError := by
  constructor
  · rfl
  · intro h
    rw [show key_insights ([] : List Record)
          = Except.error (PyErr.valueError argmaxErrMsg) from rfl] at h
    exact PyErr.noConfusion (Except.error.inj h)

/-- C2 (amended): on a table with zero rows `key_insights` does raise an
error rather than silently returning a result, but the error is the generic
pandas ValueError of `idxmax`. -/
theorem key_insights_empty_raises (df : List Record) (h : df = []) :
    key_insights df = Except.error (PyErr.valueError argmaxErrMsg) := by
  subst h; rfl

/-- Witness for `key_insights_empty_raises` at the empty table. -/
theorem key_insights_empty_raises_witness :
    key_insights [] = Except.error (PyErr.valueError argmaxErrMsg) :=
  key_insights_empty_raises [] rfl

/-! ### C5 — non-positive record counts -/

/-- C5 counterexample: no single behavior covers all `n ≤ 0`: the claimed
disjunction (always reject, or always produce an empty table) is false,
because `n = 0` yields an empty table while `n = -1` raises. -/
theorem generate_nonpositive_two_behaviors :
    ¬ ((∀ n : ℤ, n ≤ 0 → ∃ e, (generate_sample_data u0 n 42 ⟨0, 0⟩).1 = Except.error e)
        ∨ (∀ n : ℤ, n ≤ 0 → (generate_sample_data u0 n 42 ⟨0, 0⟩).1 = Except.ok [])) := by
  rintro (h | h)
  · rcases h 0 le_rfl with ⟨e, he⟩
    rw [show (generate_sample_data u0 0 42 ⟨0, 0⟩).1 = Except.ok [] from rfl] at he
    cases he
  · have h1 := h (-1) (by norm_num)
    rw [show (generate_sample_data u0 (-1) 42 ⟨0, 0⟩).1
          = Except.error (PyErr.valueError periodsErrMsg) from rfl] at h1
    cases h1

/-- C5 (amended): `n = 0` deterministically yields an empty table, while every
`n < 0` raises a ValueError out of `pd.date_range`; there is no explicit
validation, and the two ranges behave differently. -/
theorem generate_nonpositive_behavior (u : ℤ → ℕ → ℚ) (seed : ℤ) (st : GState) :
    (generate_sample_data u 0 seed st).1 = Except.ok []
      ∧ ∀ n : ℤ, n < 0 →
          (generate_sample_data u n seed st).1
            = Except.error (PyErr.valueError periodsErrMsg) := by
  constructor
  · rfl
  · intro n hn
    simp [generate_sample_data, hn]

/-- Witness for `generate_nonpositive_behavior` at `n = -1`. -/
theorem generate_nonpositive_behavior_witness :
    (generate_sample_data u0 0 42 ⟨0, 0⟩).1 = Except.ok []
      ∧ (generate_sample_data u0 (-1) 42 ⟨0, 0⟩).1
          = Except.error (PyErr.valueError periodsErrMsg) :=
  ⟨(generate_nonpositive_behavior u0 42 ⟨0, 0⟩).1,
    (generate_nonpositive_behavior u0 42 ⟨0, 0⟩).2 (-1) (by norm_num)⟩

/-! ### C3 — what the cleaner returns -/

/-- C3 counterexample: the cleaner's output carries no `invalid_removed`
count — no function of the output recovers the number of invalid rows
removed, since `[rec1]` (zero invalid rows) and `[rec1, rec0]` (one invalid
row) produce identical outputs. -/
theorem data_cleaning_no_invalid_count :
    ¬ ∃ f : CleaningOutput → ℕ,
        ∀ df : List Record,
          f (data_cleaning df)
            = (drop_duplicates df).length - (data_cleaning df).table.length := by
  rintro ⟨f, hf⟩
  have h1 := hf [rec1]
  have h2 := hf [rec1, rec0]
  rw [show data_cleaning [rec1, rec0] = data_cleaning [rec1] from by decide] at h2
  rw [show (drop_duplicates [rec1]).length - (data_cleaning [rec1]).table.length = 0
        from by decide] at h1
  rw [show (drop_duplicates [rec1, rec0]).length - (data_cleaning [rec1]).table.length = 1
        from by decide] at h2
  rw [h1] at h2
  cases h2

/-! ### C4 — the cleaner against the spec's description -/

theorem dropDupAux_eq_enum {α : Type} [DecidableEq α] (seen : List α) (l : List α) :
    dropDupAux seen l
      = (l.enum.filter (fun p => decide (p.2 ∉ seen ∧ p.2 ∉ l.take p.1))).map Prod.snd := by
  induction l generalizing seen with
  | nil => simp [dropDupAux]
  | cons a t ih =>
    have hstep : ∀ s : List α,
        ((t.enum.map (Prod.map (· + 1) id)).filter
            (fun p => decide (p.2 ∉ s ∧ p.2 ∉ (a :: t).take p.1))).map Prod.snd
          = (t.enum.filter
              (fun p => decide (p.2 ∉ s ∧ (p.2 ≠ a ∧ p.2 ∉ t.take p.1)))).map Prod.snd := by
      intro s
      rw [List.filter_map, List.map_map]
      have h1 : ((fun p : ℕ × α => decide (p.2 ∉ s ∧ p.2 ∉ (a :: t).take p.1))
            ∘ Prod.map (· + 1) id)
          = fun p : ℕ × α => decide (p.2 ∉ s ∧ (p.2 ≠ a ∧ p.2 ∉ t.take p.1)) := by
        funext p
        simp [Prod.map, List.take_succ_cons, List.mem_cons, not_or]
      have h2 : (Prod.snd ∘ Prod.map (fun x : ℕ => x + 1) (id : α → α))
          = (Prod.snd : ℕ × α → α) := by
        funext p
        simp [Prod.map]
      rw [h1, h2]
    rw [List.enum_cons', List.filter_cons]
    simp only [List.take_zero, List.not_mem_nil, not_false_iff, and_true]
    by_cases h : a ∈ seen
    · rw [dropDupAux, if_pos h, if_neg (by simp [h]), hstep seen, ih seen]
      congr 1
      apply List.filter_congr
      intro p _
      rw [decide_eq_decide]
      constructor
      · rintro ⟨h1, h3⟩
        exact ⟨h1, fun he => h1 (he ▸ h), h3⟩
      · rintro ⟨h1, _, h3⟩
        exact ⟨h1, h3⟩
    · rw [dropDupAux, if_neg h, if_pos (by simp [h])]
      simp only [List.map_cons]
      rw [hstep seen, ih (a :: seen)]
      congr 2
      apply List.filter_congr
      intro p _
      rw [decide_eq_decide]
      constructor
      · rintro ⟨h1, h3⟩
        simp only [List.mem_cons, not_or] at h1
        exact ⟨h1.2, h1.1, h3⟩
      · rintro ⟨h1, h2, h3⟩
        exact ⟨by simp [List.mem_cons, h1, h2], h3⟩

theorem drop_duplicates_eq_specDedup {α : Type} [DecidableEq α] (l : List α) :
    drop_duplicates l = specDedup l := by
  rw [drop_duplicates, dropDupAux_eq_enum, specDedup]
  congr 1
  apply List.filter_congr
  intro p _
  rw [decide_eq_decide]
  simp

/-- The three sequential positivity filters of `data_cleaning` collapse to the
single conjunctive filter of the spec. -/
theorem data_cleaning_table_eq (df : List Record) :
    (data_cleaning df).table
      = (drop_duplicates df).filter
          (fun r => decide (0 < r.Quantity ∧ 0 < r.Unit_Price ∧ 0 < r.Total_Sales)) := by
  simp only [data_cleaning, List.filter_filter]
  congr 1
  funext r
  simp only [Bool.decide_and]
  cases decide (0 < r.Quantity) <;> cases decide (0 < r.Unit_Price) <;>
    cases decide (0 < r.Total_Sales) <;> rfl

/-- C4 (confirmed): the cleaner's output equals the spec-side pipeline — drop
each row equal to an earlier row keeping the first occurrence, then drop the
rows failing positivity; the output is a sublist of the input (original order
restricted to survivors) and every survivor has positive quantity, unit price
and total sales. -/
theorem data_cleaning_matches_spec (df : List Record) :
    (data_cleaning df).table = specClean df
      ∧ List.Sublist (data_cleaning df).table df
      ∧ ∀ r ∈ (data_cleaning df).table,
          0 < r.Quantity ∧ 0 < r.Unit_Price ∧ 0 < r.Total_Sales := by
  refine ⟨?_, ?_, ?_⟩
  · rw [data_cleaning_table_eq, drop_duplicates_eq_specDedup, specClean]
  · rw [data_cleaning_table_eq]
    exact (List.filter_sublist _).trans (dropDupAux_sublist [] df)
  · intro r hr
    rw [data_cleaning_table_eq] at hr
    have hmem := List.of_mem_filter hr
    simpa using hmem

/-! ### C3 — what the cleaner reports -/

theorem length_filter_add {α : Type} (p : α → Bool) (l : List α) :
    (l.filter p).length + (l.filter (fun a => ! p a)).length = l.length := by
  induction l with
  | nil => rfl
  | cons a t ih =>
    by_cases h : p a <;> simp [List.filter_cons, h] <;> omega

/-- C3 (amended): the cleaner is a pure function returning a new table; of the
two counts the spec's report asks for it produces only `duplicates_removed`
(which correctly counts the rows equal to an earlier row) together with the
final record count; no `invalid_removed` count is returned. -/
theorem data_cleaning_report (df : List Record) :
    (data_cleaning df).duplicates_removed
        = (df.enum.filter (fun p => decide (p.2 ∈ df.take p.1))).length
      ∧ (data_cleaning df).records_after = (data_cleaning df).table.length := by
  constructor
  · have hd : (data_cleaning df).duplicates_removed
        = df.length - (drop_duplicates df).length := rfl
    rw [hd, drop_duplicates_eq_specDedup]
    have hlen : (specDedup df).length
        = (df.enum.filter (fun p => decide (p.2 ∉ df.take p.1))).length := by
      rw [specDedup, List.length_map]
    rw [hlen]
    have hpart := length_filter_add (fun p : ℕ × Record => decide (p.2 ∉ df.take p.1)) df.enum
    have hneg : (df.enum.filter (fun p : ℕ × Record => ! decide (p.2 ∉ df.take p.1)))
        = df.enum.filter (fun p => decide (p.2 ∈ df.take p.1)) := by
      congr 1
      funext p
      simp [decide_not]
    rw [hneg] at hpart
    have hlen2 : df.enum.length = df.length := List.enum_length
    omega
  · rfl

/-! ### C7 — aggregation conservation -/

theorem sum_map_add' {α M : Type} [AddCommMonoid M] (f g : α → M) (l : List α) :
    (l.map (fun x => f x + g x)).sum = (l.map f).sum + (l.map g).sum := by
  induction l with
  | nil => simp
  | cons a t ih =>
    simp only [List.map_cons, List.sum_cons, ih]
    exact add_add_add_comm _ _ _ _

theorem sum_map_single_zero {β M : Type} [DecidableEq β] [AddCommMonoid M]
    (b : β) (v : M) (ks : List β) (h : b ∉ ks) :
    (ks.map (fun k => if b = k then v else 0)).sum = 0 := by
  induction ks with
  | nil => rfl
  | cons k t ih =>
    simp only [List.mem_cons, not_or] at h
    simp [if_neg h.1, ih h.2]

theorem sum_map_single {β M : Type} [DecidableEq β] [AddCommMonoid M]
    (b : β) (v : M) (ks : List β) (hnd : ks.Nodup) (hb : b ∈ ks) :
    (ks.map (fun k => if b = k then v else 0)).sum = v := by
  induction ks with
  | nil => cases hb
  | cons k t ih =>
    rw [List.nodup_cons] at hnd
    rcases List.mem_cons.1 hb with rfl | hbt
    · have hnt : b ∉ t := hnd.1
      simp [sum_map_single_zero b v t hnt]
    · have hbk : b ≠ k := fun he => hnd.1 (he ▸ hbt)
      simp [if_neg hbk, ih hnd.2 hbt]

theorem sum_map_one {α : Type} (l : List α) : (l.map (fun _ => (1 : ℕ))).sum = l.length := by
  induction l with
  | nil => rfl
  | cons a t ih => simp [ih, Nat.add_comm]

theorem sum_fibers {α β M : Type} [DecidableEq β] [AddCommMonoid M]
    (key : α → β) (f : α → M) (ks : List β) (hnd : ks.Nodup) :
    ∀ l : List α, (∀ x ∈ l, key x ∈ ks) →
      (ks.map (fun k => ((l.filter (fun r => decide (key r = k))).map f).sum)).sum
        = (l.map f).sum := by
  intro l
  induction l with
  | nil => intro _; simp
  | cons a t ih =>
    intro hmem
    have hsplit : (fun k => (((a :: t).filter (fun r => decide (key r = k))).map f).sum)
        = fun k => (if key a = k then f a else 0)
            + ((t.filter (fun r => decide (key r = k))).map f).sum := by
      funext k
      by_cases hk : key a = k
      · simp [List.filter_cons, hk]
      · simp [List.filter_cons, hk]
    rw [hsplit, sum_map_add',
      sum_map_single (key a) (f a) ks hnd (hmem a (List.mem_cons_self a t)),
      ih (fun x hx => hmem x (List.mem_cons_of_mem a hx))]
    simp

/-- C7 (confirmed): for any grouping key the per-group sums add up to the
global total sales, and the per-group counts add up to the row count — exact
equalities in the rational embedding, hence within any floating tolerance. -/
theorem aggregation_conservation (key : Record → String) (df : List Record) (h : df ≠ []) :
    ((groupAgg key df).map (fun p => p.2.sum)).sum = total_sales df
      ∧ ((groupAgg key df).map (fun p => p.2.count)).sum = df.length := by
  have hnd : (groupKeys key df).Nodup := nodup_drop_duplicates _
  have hmem : ∀ x ∈ df, key x ∈ groupKeys key df := fun x hx =>
    (mem_drop_duplicates _ _).2 (List.mem_map_of_mem key hx)
  constructor
  · have hmm : ((groupAgg key df).map (fun p => p.2.sum))
        = (groupKeys key df).map
            (fun k => ((df.filter (fun r => decide (key r = k))).map Record.Total_Sales).sum) := by
      rw [groupAgg, List.map_map]
      rfl
    rw [hmm, sum_fibers key Record.Total_Sales _ hnd df hmem]
    rfl
  · have hmm : ((groupAgg key df).map (fun p => p.2.count))
        = (groupKeys key df).map
            (fun k => ((df.filter (fun r => decide (key r = k))).map (fun _ => (1 : ℕ))).sum) := by
      rw [groupAgg, List.map_map]
      refine List.map_congr_left ?_
      intro k _
      exact (sum_map_one _).symm
    rw [hmm, sum_fibers key (fun _ => (1 : ℕ)) _ hnd df hmem, sum_map_one]

/-- Witness for `aggregation_conservation` on a one-row table grouped by
region. -/
theorem aggregation_conservation_witness :
    (([rec1] : List Record) ≠ [])
      ∧ (((groupAgg Record.Region [rec1]).map (fun p => p.2.sum)).sum = total_sales [rec1]
          ∧ ((groupAgg Record.Region [rec1]).map (fun p => p.2.count)).sum
              = ([rec1] : List Record).length) :=
  ⟨by simp, aggregation_conservation Record.Region [rec1] (by simp)⟩

/-! ### C8 — argmax correctness of the insight extractor -/

theorem firstMax_mem_le (l : List (String × ℚ)) :
    ∀ p : String × ℚ, firstMax p l ∈ p :: l ∧ ∀ q ∈ p :: l, q.2 ≤ (firstMax p l).2 := by
  induction l with
  | nil =>
    intro p
    constructor
    · simp [firstMax]
    · intro q hq
      rcases List.mem_cons.1 hq with rfl | hq2
      · exact le_refl _
      · cases hq2
  | cons b t ih =>
    intro p
    have hfm : firstMax p (b :: t) = firstMax (if p.2 < b.2 then b else p) t := rfl
    obtain ⟨hmem, hle⟩ := ih (if p.2 < b.2 then b else p)
    constructor
    · rw [hfm]
      rcases List.mem_cons.1 hmem with hh | hh
      · rw [hh]
        split_ifs
        · exact List.mem_cons_of_mem _ (List.mem_cons_self _ _)
        · exact List.mem_cons_self _ _
      · exact List.mem_cons_of_mem _ (List.mem_cons_of_mem _ hh)
    · intro q hq
      rw [hfm]
      rcases List.mem_cons.1 hq with rfl | hq2
      · refine le_trans ?_ (hle _ (List.mem_cons_self _ _))
        split_ifs with hb
        · exact le_of_lt hb
        · exact le_refl _
      rcases List.mem_cons.1 hq2 with rfl | hq3
      · refine le_trans ?_ (hle _ (List.mem_cons_self _ _))
        split_ifs with hb
        · exact le_refl _
        · exact le_of_not_lt hb
      · exact hle q (List.mem_cons_of_mem _ hq3)

theorem firstMax_snd (l : List (String × ℚ)) :
    ∀ p : String × ℚ, (firstMax p l).2 = l.foldl (fun b q => max b q.2) p.2 := by
  induction l with
  | nil => intro p; rfl
  | cons b t ih =>
    intro p
    have hfm : firstMax p (b :: t) = firstMax (if p.2 < b.2 then b else p) t := rfl
    have hfold : (b :: t).foldl (fun x q => max x q.2) p.2
        = t.foldl (fun x q => max x q.2) (max p.2 b.2) := rfl
    rw [hfm, hfold, ih]
    congr 1
    split_ifs with hb
    · exact (max_eq_right (le_of_lt hb)).symm
    · exact (max_eq_left (le_of_not_lt hb)).symm

/-- The pair `idxmax` selects is an entry of the series, its value agrees with
`Series.max()`, and no entry exceeds it. -/
theorem argmax_entry (p : String × ℚ) (l : List (String × ℚ)) :
    isArgmaxIn (firstMax p l).1 (seriesMax (p :: l)) (p :: l) := by
  have hs : seriesMax (p :: l) = (firstMax p l).2 := (firstMax_snd l p).symm
  rw [isArgmaxIn, hs]
  constructor
  · have hmem := (firstMax_mem_le l p).1
    simpa using hmem
  · exact (firstMax_mem_le l p).2

theorem groupSums_ne_nil (key : Record → String) (df : List Record) (h : df ≠ []) :
    groupSums key df ≠ [] := by
  obtain ⟨a, t, rfl⟩ := List.exists_cons_of_ne_nil h
  intro hc
  rw [groupSums] at hc
  have hkeys := List.map_eq_nil_iff.1 hc
  have hmem : key a ∈ groupKeys key (a :: t) :=
    (mem_drop_duplicates _ _).2 (List.mem_map_of_mem key (List.mem_cons_self a t))
  rw [hkeys] at hmem
  cases hmem

/-- C8 (confirmed): on a non-empty table `key_insights` succeeds, and for each
of the four groupings the returned key is an entry of the per-group sums whose
sum is greatest, and the reported sum is that key's sum. -/
theorem key_insights_argmax (df : List Record) (h : df ≠ []) :
    ∃ ins, key_insights df = Except.ok ins
      ∧ isArgmaxIn ins.best_category ins.best_category_sales
          (groupSums Record.Product_Category df)
      ∧ isArgmaxIn ins.top_region ins.top_region_sales (groupSums Record.Region df)
      ∧ isArgmaxIn ins.top_product ins.top_product_sales (groupSums Record.Product df)
      ∧ ∃ v, isArgmaxIn ins.top_segment v (groupSums Record.Customer_Segment df) := by
  obtain ⟨p1, r1, h1⟩ := List.exists_cons_of_ne_nil (groupSums_ne_nil Record.Product_Category df h)
  obtain ⟨p2, r2, h2⟩ := List.exists_cons_of_ne_nil (groupSums_ne_nil Record.Region df h)
  obtain ⟨p3, r3, h3⟩ := List.exists_cons_of_ne_nil (groupSums_ne_nil Record.Product df h)
  obtain ⟨p4, r4, h4⟩ := List.exists_cons_of_ne_nil (groupSums_ne_nil Record.Customer_Segment df h)
  refine ⟨{ best_category := (firstMax p1 r1).1
            best_category_sales := seriesMax (p1 :: r1)
            top_region := (firstMax p2 r2).1
            top_region_sales := seriesMax (p2 :: r2)
            top_product := (firstMax p3 r3).1
            top_product_sales := seriesMax (p3 :: r3)
            top_segment := (firstMax p4 r4).1
            quarterly := quarterly_sums df }, ?_, ?_, ?_, ?_, ?_⟩
  · simp only [key_insights, h1, h2, h3, h4, idxmaxE, bind, Except.bind]
  · rw [h1]
    exact argmax_entry p1 r1
  · rw [h2]
    exact argmax_entry p2 r2
  · rw [h3]
    exact argmax_entry p3 r3
  · exact ⟨seriesMax (p4 :: r4), by rw [h4]; exact argmax_entry p4 r4⟩

/-- Witness for `key_insights_argmax` on a one-row table. -/
theorem key_insights_argmax_witness :
    (([rec1] : List Record) ≠ [])
      ∧ ∃ ins, key_insights [rec1] = Except.ok ins
          ∧ isArgmaxIn ins.best_category ins.best_category_sales
              (groupSums Record.Product_Category [rec1])
          ∧ isArgmaxIn ins.top_region ins.top_region_sales (groupSums Record.Region [rec1])
          ∧ isArgmaxIn ins.top_product ins.top_product_sales (groupSums Record.Product [rec1])
          ∧ ∃ v, isArgmaxIn ins.top_segment v (groupSums Record.Customer_Segment [rec1]) :=
  ⟨by simp, key_insights_argmax [rec1] (by simp)⟩

/-! ### C9 — the top-products ranking -/

/-- C9 (confirmed): the top-products list is sorted by sum in descending order
and its length is the minimum of 7 and the number of distinct products; fewer
than 7 entries simply means fewer distinct products, not an error. -/
theorem top_products_spec (df : List Record) (h : df ≠ []) :
    List.Pairwise (fun p q : String × ℚ => q.2 ≤ p.2) (top_products df)
      ∧ (top_products df).length = min 7 (groupKeys Record.Product df).length := by
  constructor
  · have hs := @List.sorted_mergeSort _ (fun p q : String × ℚ => decide (q.2 ≤ p.2))
      (fun a b c hab hbc => by
        simp only [decide_eq_true_eq] at *
        exact le_trans hbc hab)
      (fun a b => by
        simp only [Bool.or_eq_true, decide_eq_true_eq]
        exact le_total b.2 a.2)
      (groupSums Record.Product df)
    have hp : List.Pairwise (fun p q : String × ℚ => q.2 ≤ p.2)
        ((groupSums Record.Product df).mergeSort (fun p q => decide (q.2 ≤ p.2))) :=
      hs.imp (fun hab => by simpa using hab)
    exact hp.sublist (List.take_sublist _ _)
  · rw [top_products, List.length_take, List.length_mergeSort, groupSums, List.length_map]

/-- Witness for `top_products_spec` on a one-row table. -/
theorem top_products_spec_witness :
    (([rec1] : List Record) ≠ [])
      ∧ (List.Pairwise (fun p q : String × ℚ => q.2 ≤ p.2) (top_products [rec1])
          ∧ (top_products [rec1]).length = min 7 (groupKeys Record.Product [rec1]).length) :=
  ⟨by simp, top_products_spec [rec1] (by simp)⟩

/-! ### C10 — cleaning a freshly generated table is the identity -/

theorem ofDigits_replicate_zero (b k : ℕ) : Nat.ofDigits b (List.replicate k 0) = 0 := by
  induction k with
  | zero => rfl
  | succ n ih => simp [List.replicate_succ, Nat.ofDigits_cons, ih]

theorem ordDigits_reverse (i : ℕ) :
    (ordDigits i).reverse
      = Nat.digits 10 i ++ List.replicate (5 - (Nat.digits 10 i).length) 0 := by
  rw [ordDigits, pad5, List.reverse_append, List.reverse_reverse, List.reverse_replicate]
  simp

/-- Reading the padded digit string back as a number recovers `i`: the
zero-padding contributes nothing. -/
theorem ofDigits_ordDigits (i : ℕ) : Nat.ofDigits 10 (ordDigits i).reverse = i := by
  rw [ordDigits_reverse, Nat.ofDigits_append, Nat.ofDigits_digits, ofDigits_replicate_zero]
  simp

theorem digitChar_inj_aux :
    ∀ a ∈ List.range 10, ∀ b ∈ List.range 10, Nat.digitChar a = Nat.digitChar b → a = b := by
  decide

theorem map_digitChar_inj :
    ∀ l1 l2 : List ℕ, (∀ x ∈ l1, x < 10) → (∀ x ∈ l2, x < 10) →
      l1.map Nat.digitChar = l2.map Nat.digitChar → l1 = l2 := by
  intro l1
  induction l1 with
  | nil =>
    intro l2 _ _ hm
    cases l2 with
    | nil => rfl
    | cons b s => cases hm
  | cons a t ih =>
    intro l2 h1 h2 hm
    cases l2 with
    | nil => cases hm
    | cons b s =>
      simp only [List.map_cons, List.cons.injEq] at hm
      have ha : a = b :=
        digitChar_inj_aux a (List.mem_range.2 (h1 a (List.mem_cons_self _ _)))
          b (List.mem_range.2 (h2 b (List.mem_cons_self _ _))) hm.1
      have ht : t = s :=
        ih s (fun x hx => h1 x (List.mem_cons_of_mem _ hx))
          (fun x hx => h2 x (List.mem_cons_of_mem _ hx)) hm.2
      rw [ha, ht]

theorem ordDigits_lt (i : ℕ) : ∀ x ∈ ordDigits i, x < 10 := by
  intro x hx
  rw [ordDigits, pad5] at hx
  rcases List.mem_append.1 hx with hx | hx
  · rw [List.eq_of_mem_replicate hx]
    norm_num
  · exact Nat.digits_lt_base (by norm_num) (List.mem_reverse.1 hx)

/-- Distinct indices receive distinct order ids. -/
theorem ordId_inj (i j : ℕ) (h : ordId i = ordId j) : i = j := by
  rw [ordId, ordId] at h
  have hdata := congrArg String.data h
  simp only [String.data_append] at hdata
  have hl : (ordDigits i).map Nat.digitChar = (ordDigits j).map Nat.digitChar :=
    List.append_cancel_left hdata
  have hd : ordDigits i = ordDigits j :=
    map_digitChar_inj _ _ (ordDigits_lt i) (ordDigits_lt j) hl
  have hfin := congrArg (fun l : List ℕ => Nat.ofDigits 10 l.reverse) hd
  simpa [ofDigits_ordDigits] using hfin

theorem roundHalfEven_bounds (q : ℚ) :
    Int.floor q ≤ roundHalfEven q ∧ roundHalfEven q ≤ Int.floor q + 1 := by
  rw [roundHalfEven]
  split_ifs <;> omega

theorem randint_bounds (lo hi : ℤ) (u : ℚ) (h0 : 0 ≤ u) (h1 : u < 1) (hlt : lo < hi) :
    lo ≤ randint lo hi u ∧ randint lo hi u < hi := by
  have hdq : (0 : ℚ) < (hi : ℚ) - (lo : ℚ) := by
    have : (lo : ℚ) < (hi : ℚ) := by exact_mod_cast hlt
    linarith
  rw [randint]
  constructor
  · have hfl : (0 : ℤ) ≤ Int.floor (u * ((hi : ℚ) - (lo : ℚ))) := by
      apply Int.le_floor.2
      push_cast
      exact mul_nonneg h0 (le_of_lt hdq)
    omega
  · have hfu : Int.floor (u * ((hi : ℚ) - (lo : ℚ))) < hi - lo := by
      apply Int.floor_lt.2
      push_cast
      have hmul : u * ((hi : ℚ) - (lo : ℚ)) < 1 * ((hi : ℚ) - (lo : ℚ)) :=
        mul_lt_mul_of_pos_right h1 hdq
      linarith
    omega

theorem round2_bounds (x : ℚ) (h1 : 10 ≤ x) (h2 : x < 500) :
    10 ≤ round2 x ∧ round2 x ≤ 500 := by
  have hfl : (1000 : ℤ) ≤ Int.floor (x * 100) := by
    apply Int.le_floor.2
    push_cast
    linarith
  have hfu : Int.floor (x * 100) < 50000 := by
    apply Int.floor_lt.2
    push_cast
    linarith
  obtain ⟨hb1, hb2⟩ := roundHalfEven_bounds (x * 100)
  rw [round2]
  constructor
  · rw [le_div_iff₀ (by norm_num : (0 : ℚ) < 100)]
    have hge : (1000 : ℤ) ≤ roundHalfEven (x * 100) := le_trans hfl hb1
    have : ((1000 : ℤ) : ℚ) ≤ ((roundHalfEven (x * 100) : ℤ) : ℚ) := by exact_mod_cast hge
    push_cast at this ⊢
    linarith
  · rw [div_le_iff₀ (by norm_num : (0 : ℚ) < 100)]
    have hle : roundHalfEven (x * 100) ≤ 50000 := by omega
    have : ((roundHalfEven (x * 100) : ℤ) : ℚ) ≤ ((50000 : ℤ) : ℚ) := by exact_mod_cast hle
    push_cast at this ⊢
    linarith

theorem genRecord_Order_ID (r : ℕ → ℚ) (n i : ℕ) :
    (genRecord r n i).Order_ID = ordId (i + 1) := rfl

theorem genRecord_Quantity (r : ℕ → ℚ) (n i : ℕ) :
    (genRecord r n i).Quantity = randint 1 10 (r (2 * n + i)) := rfl

theorem genRecord_Unit_Price (r : ℕ → ℚ) (n i : ℕ) :
    (genRecord r n i).Unit_Price = round2 (uniform 10 500 (r (3 * n + i))) := rfl

theorem genRecord_Total_Sales (r : ℕ → ℚ) (n i : ℕ) :
    (genRecord r n i).Total_Sales
      = ((randint 1 10 (r (2 * n + i)) : ℤ) : ℚ) * round2 (uniform 10 500 (r (3 * n + i))) := rfl

/-- C10 (confirmed): cleaning a freshly generated table removes nothing —
order ids are pairwise distinct so no row duplicates an earlier one, every
quantity lies in [1,9], every unit price in [10,500], and every total is
positive, so the cleaner returns the table unchanged with zero reported
duplicate removals and an unchanged record count. -/
theorem clean_of_generate (u : ℤ → ℕ → ℚ) (n seed : ℤ) (st : GState)
    (hn : 1 ≤ n) (hu : ∀ k, 0 ≤ u seed k ∧ u seed k < 1) :
    ∃ t, (generate_sample_data u n seed st).1 = Except.ok t
      ∧ data_cleaning t = { table := t, duplicates_removed := 0, records_after := t.length }
      ∧ ∀ r ∈ t, 1 ≤ r.Quantity ∧ r.Quantity ≤ 9
          ∧ 10 ≤ r.Unit_Price ∧ r.Unit_Price ≤ 500 ∧ 0 < r.Total_Sales := by
  have hnneg : ¬ n < 0 := by omega
  refine ⟨(List.range n.toNat).map (genRecord (u seed) n.toNat), ?_, ?_, ?_⟩
  · simp [generate_sample_data, hnneg]
  · have hprops : ∀ r ∈ (List.range n.toNat).map (genRecord (u seed) n.toNat),
        0 < r.Quantity ∧ 0 < r.Unit_Price ∧ 0 < r.Total_Sales := by
      intro r hr
      obtain ⟨i, _, rfl⟩ := List.mem_map.1 hr
      obtain ⟨hq0, _⟩ := randint_bounds 1 10 (u seed (2 * n.toNat + i))
        (hu _).1 (hu _).2 (by norm_num)
      have hup : 10 ≤ uniform 10 500 (u seed (3 * n.toNat + i))
          ∧ uniform 10 500 (u seed (3 * n.toNat + i)) < 500 := by
        rw [uniform]
        constructor
        · nlinarith [(hu (3 * n.toNat + i)).1]
        · nlinarith [(hu (3 * n.toNat + i)).1, (hu (3 * n.toNat + i)).2]
      obtain ⟨hp0, _⟩ := round2_bounds _ hup.1 hup.2
      refine ⟨?_, ?_, ?_⟩
      · rw [genRecord_Quantity]
        omega
      · rw [genRecord_Unit_Price]
        linarith
      · rw [genRecord_Total_Sales]
        apply mul_pos
        · have hc : ((1 : ℤ) : ℚ) ≤ ((randint 1 10 (u seed (2 * n.toNat + i)) : ℤ) : ℚ) := by
            exact_mod_cast hq0
          push_cast at hc
          linarith
        · linarith
    have hnodup : ((List.range n.toNat).map (genRecord (u seed) n.toNat)).Nodup := by
      apply List.Nodup.map_on ?_ (List.nodup_range n.toNat)
      intro i _ j _ hij
      have h1 := congrArg Record.Order_ID hij
      rw [genRecord_Order_ID, genRecord_Order_ID] at h1
      have := ordId_inj _ _ h1
      omega
    have hdd : drop_duplicates ((List.range n.toNat).map (genRecord (u seed) n.toNat))
        = (List.range n.toNat).map (genRecord (u seed) n.toNat) :=
      drop_duplicates_of_nodup _ hnodup
    have hq : ((List.range n.toNat).map (genRecord (u seed) n.toNat)).filter
          (fun r => decide (0 < r.Quantity))
        = (List.range n.toNat).map (genRecord (u seed) n.toNat) :=
      List.filter_eq_self.2 (fun a ha => by
        simp only [decide_eq_true_eq]
        exact (hprops a ha).1)
    have hp : ((List.range n.toNat).map (genRecord (u seed) n.toNat)).filter
          (fun r => decide (0 < r.Unit_Price))
        = (List.range n.toNat).map (genRecord (u seed) n.toNat) :=
      List.filter_eq_self.2 (fun a ha => by
        simp only [decide_eq_true_eq]
        exact (hprops a ha).2.1)
    have hts : ((List.range n.toNat).map (genRecord (u seed) n.toNat)).filter
          (fun r => decide (0 < r.Total_Sales))
        = (List.range n.toNat).map (genRecord (u seed) n.toNat) :=
      List.filter_eq_self.2 (fun a ha => by
        simp only [decide_eq_true_eq]
        exact (hprops a ha).2.2)
    simp only [data_cleaning, hdd, hq, hp, hts, Nat.sub_self]
  · intro r hr
    obtain ⟨i, _, rfl⟩ := List.mem_map.1 hr
    obtain ⟨hq0, hq1⟩ := randint_bounds 1 10 (u seed (2 * n.toNat + i))
      (hu _).1 (hu _).2 (by norm_num)
    have hup : 10 ≤ uniform 10 500 (u seed (3 * n.toNat + i))
        ∧ uniform 10 500 (u seed (3 * n.toNat + i)) < 500 := by
      rw [uniform]
      constructor
      · nlinarith [(hu (3 * n.toNat + i)).1]
      · nlinarith [(hu (3 * n.toNat + i)).1, (hu (3 * n.toNat + i)).2]
    obtain ⟨hp0, hp1⟩ := round2_bounds _ hup.1 hup.2
    refine ⟨?_, ?_, ?_, ?_, ?_⟩
    · rw [genRecord_Quantity]
      exact hq0
    · rw [genRecord_Quantity]
      omega
    · rw [genRecord_Unit_Price]
      exact hp0
    · rw [genRecord_Unit_Price]
      exact hp1
    · rw [genRecord_Total_Sales]
      apply mul_pos
      · have hc : ((1 : ℤ) : ℚ) ≤ ((randint 1 10 (u seed (2 * n.toNat + i)) : ℤ) : ℚ) := by
          exact_mod_cast hq0
        push_cast at hc
        linarith
      · linarith

/-- Witness for `clean_of_generate` with one order, seed 0 and the constant
zero draw stream. -/
theorem clean_of_generate_witness :
    ∃ t, (generate_sample_data u0 1 0 ⟨0, 0⟩).1 = Except.ok t
      ∧ data_cleaning t = { table := t, duplicates_removed := 0, records_after := t.length }
      ∧ ∀ r ∈ t, 1 ≤ r.Quantity ∧ r.Quantity ≤ 9
          ∧ 10 ≤ r.Unit_Price ∧ r.Unit_Price ≤ 500 ∧ 0 < r.Total_Sales :=
  clean_of_generate u0 1 0 ⟨0, 0⟩ (le_refl 1) (fun k => by norm_num [u0])

end Retail
